import Mathlib

/-!
Verification development for a small PDF 1.7 writer.

The output file is modelled as a list of bytes (`List Nat`, each entry a
byte value).  ASCII emission done in C++ with `fmt::format` / `snprintf`
is modelled by explicit decimal / hexadecimal rendering functions below.
C++ `double` values that are only formatted into the output (media box
coordinates, point sizes, text positions) are carried as their already
formatted byte strings, since their numeric value never influences
control flow in the code under study.  `std::unordered_set` containers
are modelled as duplicate-free insertion lists (`insertSet`).
-/

/-- Byte sequence of an ASCII string literal. -/
def bytes (s : String) : List Nat := s.data.map Char.toNat

/-- Fuel-driven worker for `natDec` (structural recursion keeps it kernel
reducible; the fuel is always sufficient at the call site). -/
def natDecAux : Nat → Nat → List Nat
  | 0, _ => []
  | fuel + 1, n =>
    if n < 10 then [48 + n] else natDecAux fuel (n / 10) ++ [48 + n % 10]

/-- Decimal rendering of a natural number, as produced by `fmt::format("{}")`
or `snprintf("%d")` for non-negative values: most significant digit first. -/
def natDec (n : Nat) : List Nat := natDecAux (n + 1) n

/-- Decimal rendering of an integer (possible leading minus sign). -/
def intDec (k : Int) : List Nat :=
  if k < 0 then 45 :: natDec (-k).toNat else natDec k.toNat

/-- Zero padding to (at least) ten digits, as `fmt::format("{:010}")` does. -/
def pad10 (n : Nat) : List Nat :=
  List.replicate (10 - (natDec n).length) 48 ++ natDec n

/-- Lowercase hexadecimal digit byte. -/
def hexDigit (d : Nat) : Nat := if d < 10 then 48 + d else 87 + d

/-- Two lowercase hex digits of a byte value, as `fmt::format("{:02x}")` does
after the `(unsigned char)` cast. -/
def hex2 (b : Nat) : List Nat := [hexDigit (b % 256 / 16), hexDigit (b % 256 % 16)]

/-- Concatenation of byte chunks. -/
def flat (l : List (List Nat)) : List Nat := l.foldr (· ++ ·) []

/-- Value of a decimal digit string (used to invert `natDec`). -/
def decVal (l : List Nat) : Nat := l.foldl (fun a d => a * 10 + (d - 48)) 0

/-- Whether `pat` is a leading block of `l` (used by `containsSeq`). -/
def startsWith : List Nat → List Nat → Bool
  | [], _ => true
  | _ :: _, [] => false
  | a :: ps, b :: ls => a == b && startsWith ps ls

/-- Whether `pat` occurs as a contiguous byte run inside `l`. -/
def containsSeq (pat : List Nat) : List Nat → Bool
  | [] => pat.isEmpty
  | b :: ls => startsWith pat (b :: ls) || containsSeq pat ls

/-- Model of `std::unordered_set::insert`: a duplicate-free insertion list. -/
def insertSet {α} [DecidableEq α] (x : α) (l : List α) : List α :=
  if x ∈ l then l else l ++ [x]

/-! ## Document assembler (`PdfGen`, src/pdfgen.cpp) -/

/-- Object numbers of the two indirect objects backing one page
(`struct PageOffsets`). -/
structure PageOffsets where
  resource_obj_num : Nat
  commands_obj_num : Nat
deriving DecidableEq

/-- The part of `PdfGenerationData` that `write_pages` consumes.  The media
box coordinates are doubles in the C++; they are carried here as the byte
strings `fmt` renders them to. -/
structure PdfGenerationData where
  mediabox_x : List Nat
  mediabox_y : List Nat
  mediabox_w : List Nat
  mediabox_h : List Nat
deriving DecidableEq

/-- The mutable state of `PdfGen` that the claims concern: the bytes written
so far (`ofile` contents, so `ftell` = `file.length`), the recorded object
offsets, and the accumulated page records. -/
structure GenState where
  file : List Nat
  object_offsets : List Nat
  pages : List PageOffsets
deriving DecidableEq

/-- Header line of indirect object `n`: `"N 0 obj\n"`. -/
def objHeader (n : Nat) : List Nat := natDec n ++ bytes " 0 obj\n"

/-- `PdfGen::add_object`: allocate the next object number, record the current
file offset, then write header, body and `endobj`.  Returns the new state and
the assigned object number. -/
def add_object (st : GenState) (object_data : List Nat) : GenState × Nat :=
  let object_num := st.object_offsets.length + 1
  let st' : GenState :=
    { st with
      object_offsets := st.object_offsets ++ [st.file.length]
      file := st.file ++ objHeader object_num ++ object_data ++ bytes "endobj\n" }
  (st', object_num)

/-- Body of one `/Type /Page` object as formatted in `PdfGen::write_pages`. -/
def pageObjectDict (opts : PdfGenerationData) (pages_obj_num : Nat) (p : PageOffsets) :
    List Nat :=
  bytes "<<\n  /Type /Page\n  /Parent " ++ natDec pages_obj_num ++
  bytes " 0 R\n  /MediaBox [ " ++ opts.mediabox_x ++ [32] ++ opts.mediabox_y ++ [32] ++
  opts.mediabox_w ++ [32] ++ opts.mediabox_h ++
  bytes " ]\n  /Contents " ++ natDec p.commands_obj_num ++
  bytes " 0 R\n  /Resources " ++ natDec p.resource_obj_num ++ bytes " 0 R\n>>\n"

/-- The per-page loop of `PdfGen::write_pages`: emit one object per page and
collect the assigned object numbers (`page_objects`). -/
def emit_page_objects (opts : PdfGenerationData) (pages_obj_num : Nat) :
    GenState → List PageOffsets → GenState × List Nat
  | st, [] => (st, [])
  | st, p :: ps =>
    let r := add_object st (pageObjectDict opts pages_obj_num p)
    let rest := emit_page_objects opts pages_obj_num r.1 ps
    (rest.1, r.2 :: rest.2)

/-- Body of the `/Type /Pages` root object built in `PdfGen::write_pages`. -/
def pagesDict (page_objects : List Nat) : List Nat :=
  bytes "<<\n  /Type /Pages\n  /Kids [\n" ++
  flat (page_objects.map (fun i => bytes "    " ++ natDec i ++ bytes " 0 R\n")) ++
  bytes "  ]\n  /Count " ++ natDec page_objects.length ++ bytes "\n>>\n"

/-- `PdfGen::write_pages`: predict the page-tree object number, emit all page
objects, then the page-tree root; throw (`Except.error`) if the actual number
differs from the prediction. -/
def write_pages (opts : PdfGenerationData) (st : GenState) : Except String GenState :=
  let pages_obj_num := st.object_offsets.length + st.pages.length + 1
  let r := emit_page_objects opts pages_obj_num st st.pages
  let r2 := add_object r.1 (pagesDict r.2)
  if r2.2 ≠ pages_obj_num then Except.error "Buggy McBugFace!" else Except.ok r2.1

/-- `PdfGen::write_catalog`: the catalog references the object emitted just
before it and becomes the last object itself.  Returns the new state and the
catalog's object number. -/
def write_catalog (st : GenState) : GenState × Nat :=
  let pages_obj_num := st.object_offsets.length
  add_object st
    (bytes "<<\n  /Type /Catalog\n  /Pages " ++ natDec pages_obj_num ++ bytes " 0 R\n>>\n")

/-- One non-free entry of the cross-reference table: `"%010d 00000 n \n"`. -/
def xrefEntry (off : Nat) : List Nat := pad10 off ++ bytes " 00000 n \n"

/-- The free-list head entry `"0000000000 65535 f \n"` (trailing space before
the newline is significant). -/
def xrefFreeEntry : List Nat := bytes "0000000000 65535 f \n"

/-- `PdfGen::write_cross_reference_table`: the bytes of the xref section. -/
def write_cross_reference_table (object_offsets : List Nat) : List Nat :=
  bytes "xref\n0 " ++ natDec (object_offsets.length + 1) ++ bytes "\n" ++
  xrefFreeEntry ++ flat (object_offsets.map xrefEntry)

/-- `PdfGen::write_trailer`: the bytes of the trailer.  `/Size` is the object
count plus one, `/Root` is the last object printed, `/Info` is object 1. -/
def write_trailer (object_offsets : List Nat) (xref_offset : Nat) : List Nat :=
  bytes "trailer\n<<\n  /Size " ++ natDec (object_offsets.length + 1) ++
  bytes "\n  /Root " ++ natDec object_offsets.length ++
  bytes " 0 R\n  /Info 1 0 R\n>>\nstartxref\n" ++ natDec xref_offset ++ bytes "\n%%EOF\n"

/-- `PdfGen::close_file`: flush pages, write catalog, record the xref offset,
then append the cross-reference table and the trailer. -/
def close_file (opts : PdfGenerationData) (st : GenState) : Except String GenState :=
  match write_pages opts st with
  | Except.error e => Except.error e
  | Except.ok st1 =>
    let c := write_catalog st1
    let xref_offset := c.1.file.length
    let st3 : GenState :=
      { c.1 with file := c.1.file ++ write_cross_reference_table c.1.object_offsets }
    Except.ok { st3 with file := st3.file ++ write_trailer st3.object_offsets xref_offset }

/-- Invariant: every recorded offset points at the `"i 0 obj\n"` header of the
corresponding (1-based) indirect object. -/
def objects_well_placed (st : GenState) : Prop :=
  ∀ i (h : i < st.object_offsets.length),
    (st.file.drop st.object_offsets[i]).take (objHeader (i + 1)).length =
      objHeader (i + 1)

/-! ## Page builder (`PdfPage`, src/pdfpage.cpp) -/

/-- A font subset reference (`struct FontSubset`): font id plus subset index. -/
structure FontSubset where
  fid : Nat
  subset_id : Nat
deriving DecidableEq

/-- Per-font data the page builder reads from the generator's `font_objects`
table; only the PDF object number of the font matters here. -/
structure FontInfo where
  font_obj : Nat
deriving DecidableEq

/-- The graphics-state fields `build_resource_dict` serializes: optional blend
mode and rendering intent, as indices into the two name tables. -/
structure GraphicsStateM where
  blend_mode : Option (Fin 16)
  intent : Option (Fin 4)
deriving DecidableEq

/-- One named graphics state registered on a page (`struct GsEntries`). -/
structure GsEntries where
  name : String
  state : GraphicsStateM
deriving DecidableEq

/-- The document output color space (`enum PdfColorSpace`). -/
inductive PdfColorSpace
  | deviceRGB
  | deviceGray
  | deviceCMYK
deriving DecidableEq

/-- The `blend_mode_names` table. -/
def blend_mode_names : List String :=
  ["Normal", "Multiply", "Screen", "Overlay", "Darken", "Lighten", "ColorDodge",
   "ColorBurn", "HardLight", "SoftLight", "Difference", "Exclusion", "Hue",
   "Saturation", "Color", "Luminosity"]

/-- The `intent_names` table. -/
def intent_names : List String :=
  ["RelativeColorimetric", "AbsoluteColorimetric", "Saturation", "Perceptual"]

/-- The `PdfPage` state the claims concern: the used-resource sets, the
generator-side tables it consults, the command buffer and the finalization
flag. -/
structure PdfPageState where
  used_images : List Nat
  used_fonts : List Nat
  used_subset_fonts : List FontSubset
  used_colorspaces : List Nat
  uses_all_colorspace : Bool
  gstates : List GsEntries
  font_objects : List FontInfo
  separation_objects : List Nat
  output_colorspace : PdfColorSpace
  commands : List Nat
  resources : List Nat
  is_finalized : Bool
deriving DecidableEq

/-- The `/ColorSpace` name emitted right after `<<` in the resource dict. -/
def colorSpaceName : PdfColorSpace → List Nat
  | PdfColorSpace.deviceRGB => bytes "/DeviceRGB\n"
  | PdfColorSpace.deviceGray => bytes "/DeviceGray\n"
  | PdfColorSpace.deviceCMYK => bytes "/DeviceCMYK\n"

/-- One `/XObject` entry: `"    /Image{} {} 0 R\n"`. -/
def imageEntry (i : Nat) : List Nat :=
  bytes "    /Image" ++ natDec i ++ [32] ++ natDec i ++ bytes " 0 R\n"

/-- One whole-font `/Font` entry: `"    /Font{} {} 0 R\n"`. -/
def fontEntry (i : Nat) : List Nat :=
  bytes "    /Font" ++ natDec i ++ [32] ++ natDec i ++ bytes " 0 R\n"

/-- One subset-font `/Font` entry: `"    /SFont{}-{} {} 0 R\n"` with the
font's object number looked up in `font_objects`. -/
def subsetEntry (font_objects : List FontInfo) (s : FontSubset) : List Nat :=
  let bob := font_objects.getD s.fid ⟨0⟩
  bytes "    /SFont" ++ natDec bob.font_obj ++ [45] ++ natDec s.subset_id ++ [32] ++
  natDec bob.font_obj ++ bytes " 0 R\n"

/-- One `/ColorSpace` entry: `"    /CSpace{} {} 0 R\n"`. -/
def cspaceEntry (i : Nat) : List Nat :=
  bytes "    /CSpace" ++ natDec i ++ [32] ++ natDec i ++ bytes " 0 R\n"

/-- The `/All` entry referencing `separation_objects.at(0)`. -/
def allEntry (p : PdfPageState) : List Nat :=
  bytes "    /All " ++ natDec (p.separation_objects.getD 0 0) ++ bytes " 0 R\n"

/-- One `/ExtGState` entry: the name, then the optional `/BM` and
`/RenderingIntent` lines. -/
def gsEntry (s : GsEntries) : List Nat :=
  bytes "    /" ++ bytes s.name ++ bytes " <<\n" ++
  (match s.state.blend_mode with
   | some b => bytes "      /BM /" ++ bytes (blend_mode_names.getD b.val "") ++ bytes "\n"
   | none => []) ++
  (match s.state.intent with
   | some i =>
     bytes "      /RenderingIntent /" ++ bytes (intent_names.getD i.val "") ++ bytes "\n"
   | none => []) ++
  bytes "    >>\n"

/-- The `/XObject` sub-dictionary block (empty when no image was used). -/
def xobjBlock (p : PdfPageState) : List Nat :=
  if p.used_images.isEmpty then [] else
    bytes "  /XObject <<\n" ++ flat (p.used_images.map imageEntry) ++ bytes "  >>\n"

/-- The `/Font` sub-dictionary block (whole fonts then subset fonts). -/
def fontBlock (p : PdfPageState) : List Nat :=
  if p.used_fonts.isEmpty && p.used_subset_fonts.isEmpty then [] else
    bytes "  /Font <<\n" ++ flat (p.used_fonts.map fontEntry) ++
    flat (p.used_subset_fonts.map (subsetEntry p.font_objects)) ++ bytes "  >>\n"

/-- The `/ColorSpace` sub-dictionary block (`/All` first when used). -/
def csBlock (p : PdfPageState) : List Nat :=
  if p.used_colorspaces.isEmpty && !p.uses_all_colorspace then [] else
    bytes "  /ColorSpace <<\n" ++ (if p.uses_all_colorspace then allEntry p else []) ++
    flat (p.used_colorspaces.map cspaceEntry) ++ bytes "  >>\n"

/-- The `/ExtGState` sub-dictionary block. -/
def gsBlock (p : PdfPageState) : List Nat :=
  if p.gstates.isEmpty then [] else
    bytes "  /ExtGState <<\n" ++ flat (p.gstates.map gsEntry) ++ bytes "  >>\n"

/-- `PdfPage::build_resource_dict`, appending the sub-dictionaries in source
order under the same emptiness conditions as the C++. -/
def build_resource_dict (p : PdfPageState) : List Nat :=
  let r := bytes "<<\n  /ColorSpace " ++ colorSpaceName p.output_colorspace
  let r := if p.used_images.isEmpty then r else
    r ++ bytes "  /XObject <<\n" ++ flat (p.used_images.map imageEntry) ++ bytes "  >>\n"
  let r := if p.used_fonts.isEmpty && p.used_subset_fonts.isEmpty then r else
    r ++ bytes "  /Font <<\n" ++ flat (p.used_fonts.map fontEntry) ++
    flat (p.used_subset_fonts.map (subsetEntry p.font_objects)) ++ bytes "  >>\n"
  let r := if p.used_colorspaces.isEmpty && !p.uses_all_colorspace then r else
    r ++ bytes "  /ColorSpace <<\n" ++ (if p.uses_all_colorspace then allEntry p else []) ++
    flat (p.used_colorspaces.map cspaceEntry) ++ bytes "  >>\n"
  let r := if p.gstates.isEmpty then r else
    r ++ bytes "  /ExtGState <<\n" ++ flat (p.gstates.map gsEntry) ++ bytes "  >>\n"
  r ++ bytes ">>\n"

/-- The stream object body formatted in `PdfPage::finalize`:
`"<<\n  /Length {}\n>>\nstream\n{}\nendstream\n"`. -/
def stream_object (commands : List Nat) : List Nat :=
  bytes "<<\n  /Length " ++ natDec commands.length ++ bytes "\n>>\nstream\n" ++
  commands ++ bytes "\nendstream\n"

/-- `PdfPage::finalize`: error out when already finalized, otherwise set the
flag, build the resource dictionary and hand both artifacts to the
generator's `add_page` (whose possible failure propagates). -/
def page_finalize (add_page : List Nat → List Nat → Except String Unit)
    (p : PdfPageState) : Except String PdfPageState :=
  if p.is_finalized then Except.error "Tried to finalize a page object twice."
  else
    let p1 := { p with is_finalized := true, resources := build_resource_dict p }
    match add_page p1.resources (stream_object p1.commands) with
    | Except.ok _ => Except.ok p1
    | Except.error e => Except.error e

/-- `PdfPage::~PdfPage`: auto-finalize when not yet finalized; any failure is
caught and logged (`"FAIL: ..."`), never propagated — the function is total
and returns the (possibly unchanged) state plus the log lines. -/
def page_destructor (add_page : List Nat → List Nat → Except String Unit)
    (p : PdfPageState) : PdfPageState × List String :=
  if p.is_finalized then (p, [])
  else
    match page_finalize add_page p with
    | Except.ok p1 => (p1, [])
    | Except.error e => (p, ["FAIL: " ++ e ++ "\n"])

/-! ## UTF-8 text rendering (`PdfPage::render_utf8_text`, src/pdfpage.cpp)

The UTF-8 → codepoint conversion (iconv) and the font manager's glyph
lookup (`PdfGen::get_subset_glyph`, whose implementation is outside the
sources under study) are external collaborators here: the text arrives as
its list of Unicode codepoints, and the glyph lookup, the FreeType
kerning table and the font-object table are parameters.  Besides the page
state, the model returns whether the conversion context was opened and
the list of codepoints passed to the font manager. -/

/-- Result of `PdfGen::get_subset_glyph`: the subset and the byte glyph id. -/
structure SubsetGlyph where
  ss : FontSubset
  glyph_id : Nat
deriving DecidableEq

/-- The per-codepoint while loop of `render_utf8_text`.  `prev_cp` and
`prev_ss` model `previous_codepoint` / `previous_subset` (the `-1` sentinels
become `none`).  Returns the updated page plus the codepoints sent to the
font manager. -/
def render_loop (gsg : Nat → SubsetGlyph) (has_kerning : Bool)
    (kern : Nat → Nat → Int) (pointsize x y : List Nat) :
    Option Nat → Option FontSubset → PdfPageState → List Nat →
      PdfPageState × List Nat
  | _, _, p, [] =>
    ({ p with commands := p.commands ++ bytes "> ] TJ\nET\n" }, [])
  | prev_cp, prev_ss, p, cp :: rest =>
    let csg := gsg cp
    let bob := p.font_objects.getD csg.ss.fid ⟨0⟩
    let p := { p with used_subset_fonts := insertSet csg.ss p.used_subset_fonts }
    let switchBytes :=
      match prev_ss with
      | none =>
        bytes "BT\n  /SFont" ++ natDec bob.font_obj ++ [45] ++ natDec csg.ss.subset_id ++
        [32] ++ pointsize ++ bytes " Tf\n  " ++ x ++ [32] ++ y ++ bytes " Td\n  [ <"
      | some ps =>
        if csg.ss ≠ ps then
          bytes ") ] TJ\n  /SFont" ++ natDec bob.font_obj ++ [45] ++
          natDec csg.ss.subset_id ++ [32] ++ pointsize ++ bytes " Tf\n  [ <"
        else []
    let kernBytes :=
      match prev_cp with
      | some pc =>
        if has_kerning then
          (if kern pc cp ≠ 0 then [62] ++ intDec (kern pc cp) ++ [60] else [])
        else []
      | none => []
    let p := { p with
      commands := p.commands ++ switchBytes ++ kernBytes ++ hex2 csg.glyph_id }
    let r := render_loop gsg has_kerning kern pointsize x y (some cp) (some csg.ss) p rest
    (r.1, cp :: r.2)

/-- `PdfPage::render_utf8_text`: early return on empty text, otherwise open
the conversion context and run the glyph loop.  The boolean in the result
records whether the conversion context was opened. -/
def render_utf8_text (gsg : Nat → SubsetGlyph) (has_kerning : Bool)
    (kern : Nat → Nat → Int) (p : PdfPageState) (text : List Nat)
    (pointsize x y : List Nat) : PdfPageState × Bool × List Nat :=
  if text.isEmpty then (p, false, [])
  else
    let r := render_loop gsg has_kerning kern pointsize x y none none p text
    (r.1, true, r.2)

/-! ## Non-stroking color selection (`PdfPage::set_nonstroke_color`)

Only the choice of operator and the converter invocations matter to the
claims, not the decimal rendering of the floating-point channels, so the
channel scalar type `α` and the two converter functions of
`PdfColorConverter` are parameters and the emitted operator is kept in
structured form. -/

/-- An RGB device color (`DeviceRGBColor`) over scalar type `α`. -/
structure RgbColor (α : Type) where
  r : α
  g : α
  b : α
deriving DecidableEq

/-- A gray device color (`DeviceGrayColor`). -/
structure GrayColor (α : Type) where
  v : α
deriving DecidableEq

/-- A CMYK device color (`DeviceCMYKColor`). -/
structure CmykColor (α : Type) where
  c : α
  m : α
  y : α
  k : α
deriving DecidableEq

/-- The content-stream operator emitted by a non-stroking color selection. -/
inductive PageOp (α : Type)
  | op_rg (r g b : α)
  | op_g (v : α)
  | op_k (c m y k : α)
deriving DecidableEq

/-- A recorded invocation of the color converter `cm`. -/
inductive ConvCall (α : Type)
  | to_gray (c : RgbColor α)
  | to_cmyk (c : RgbColor α)
deriving DecidableEq

/-- `PdfPage::set_nonstroke_color(const DeviceRGBColor&)`: switch on the
document output color space; convert through `cm` when it is not RGB.
Returns the emitted operator and the converter invocations made. -/
def set_nonstroke_color_rgb {α : Type} (out : PdfColorSpace)
    (to_gray : RgbColor α → GrayColor α) (to_cmyk : RgbColor α → CmykColor α)
    (c : RgbColor α) : PageOp α × List (ConvCall α) :=
  match out with
  | PdfColorSpace.deviceRGB => (PageOp.op_rg c.r c.g c.b, [])
  | PdfColorSpace.deviceGray =>
    let gray := to_gray c
    (PageOp.op_g gray.v, [ConvCall.to_gray c])
  | PdfColorSpace.deviceCMYK =>
    let cmyk := to_cmyk c
    (PageOp.op_k cmyk.c cmyk.m cmyk.y cmyk.k, [ConvCall.to_cmyk c])

/-- `PdfPage::set_nonstroke_color(const DeviceGrayColor&)`: the source
assumes switching to the gray color space is always acceptable and emits
`g` directly, consulting neither the output color space nor the
converter (both are nevertheless in scope for it, hence parameters). -/
def set_nonstroke_color_gray {α : Type} (_out : PdfColorSpace)
    (_to_gray : RgbColor α → GrayColor α) (_to_cmyk : RgbColor α → CmykColor α)
    (c : GrayColor α) : PageOp α × List (ConvCall α) :=
  (PageOp.op_g c.v, [])

/-! ## `LimitDouble` (src/unnamed/part_003)

The C++ stores a `double`.  The value space is modelled as the rationals
extended with NaN and the two infinities, with the IEEE comparison
semantics the two `<` tests in `clamp` rely on (every comparison against
NaN is false, `-inf` is below every finite value, `+inf` above). -/

/-- A C++ `double` value as far as `LimitDouble::clamp` observes it. -/
inductive FpVal
  | nan
  | pinf
  | ninf
  | fin (q : ℚ)
deriving DecidableEq

/-- `std::isnan`. -/
def fpIsNan : FpVal → Bool
  | FpVal.nan => true
  | _ => false

/-- IEEE `<` on doubles (false whenever either side is NaN). -/
def fplt : FpVal → FpVal → Bool
  | FpVal.nan, _ => false
  | _, FpVal.nan => false
  | FpVal.ninf, FpVal.ninf => false
  | FpVal.ninf, _ => true
  | _, FpVal.ninf => false
  | FpVal.pinf, _ => false
  | FpVal.fin _, FpVal.pinf => true
  | FpVal.fin a, FpVal.fin b => decide (a < b)

/-- The `LimitDouble(double)` constructor: store the argument and `clamp` it
(NaN to `minval = 0`, below `minval` to 0, above `maxval = 1` to 1). -/
def limitDouble (new_val : FpVal) : FpVal :=
  if fpIsNan new_val then FpVal.fin 0
  else if fplt new_val (FpVal.fin 0) then FpVal.fin 0
  else if fplt (FpVal.fin 1) new_val then FpVal.fin 1
  else new_val

/-! ## Concrete fixtures for the test-scenario claims -/

/-- A page state with everything empty (a freshly constructed `PdfPage` whose
generator has one font with PDF object number 5). -/
def freshPage : PdfPageState :=
  { used_images := [], used_fonts := [], used_subset_fonts := [], used_colorspaces := []
    uses_all_colorspace := false, gstates := [], font_objects := [⟨5⟩]
    separation_objects := [], output_colorspace := PdfColorSpace.deviceRGB
    commands := [], resources := [], is_finalized := false }

/-- Glyph lookup for the kerning scenario: `A` and `f` land in subset 0 of
font 0 with byte glyph ids 0x41 and 0x66 (the assignment order the spec's
test fixes). -/
def kernGsg : Nat → SubsetGlyph :=
  fun cp =>
    if cp = 65 then ⟨⟨0, 0⟩, 65⟩ else if cp = 102 then ⟨⟨0, 0⟩, 102⟩ else ⟨⟨0, 0⟩, 0⟩

/-- Kerning table for the scenario: pair (A, f) kerns by −50 font units. -/
def kernTable : Nat → Nat → Int :=
  fun a b => if a = 65 && b = 102 then -50 else 0

/-- An `add_page` callback that always succeeds. -/
def apOk : List Nat → List Nat → Except String Unit := fun _ _ => Except.ok ()

/-- An `add_page` callback that fails with an I/O error. -/
def apErr : List Nat → List Nat → Except String Unit := fun _ _ => Except.error "io"

/-- `freshPage` after a successful finalize (used to exercise the
double-finalize error path). -/
def finalizedPage : PdfPageState := { freshPage with is_finalized := true }

/-- An RGB→Gray converter stub for the color-selection counterexample. -/
def toGray0 : RgbColor Int → GrayColor Int := fun c => ⟨c.r⟩

/-- An RGB→CMYK converter stub for the color-selection counterexample. -/
def toCmyk0 : RgbColor Int → CmykColor Int := fun c => ⟨c.r, c.g, c.b, 0⟩

/-- A page state exercising every branch of `build_resource_dict`. -/
def busyPage : PdfPageState :=
  { used_images := [3], used_fonts := [5], used_subset_fonts := [⟨0, 0⟩]
    used_colorspaces := [8], uses_all_colorspace := true
    gstates := [⟨"GS0", ⟨some 1, some 0⟩⟩], font_objects := [⟨5⟩]
    separation_objects := [9], output_colorspace := PdfColorSpace.deviceCMYK
    commands := [], resources := [], is_finalized := false }

/-- Options of the concrete empty-document run: a 200x200 media box. -/
def c5Opts : PdfGenerationData := ⟨bytes "0", bytes "0", bytes "200", bytes "200"⟩

/-- The assembler state of the concrete run before closing: nothing written
yet, no objects, no pages. -/
def c5St0 : GenState := ⟨[], [], []⟩

/-- A concrete `close_file` run on the empty document. -/
def c5Run : Except String GenState := close_file c5Opts c5St0

/-- The state after `write_pages` of the concrete run. -/
def c5PagesOk : GenState :=
  match write_pages c5Opts c5St0 with
  | Except.ok s => s
  | Except.error _ => ⟨[], [], []⟩

/-- Whether the concrete run succeeded. -/
def c5IsOk : Bool :=
  match c5Run with
  | Except.ok _ => true
  | Except.error _ => false

/-- The bytes of the file written by the concrete run. -/
def c5FileBytes : List Nat :=
  match c5Run with
  | Except.ok f => f.file
  | Except.error _ => []

/-! ## Helper lemmas -/

theorem natDecAux_congr : ∀ (f₁ f₂ n : Nat), n < f₁ → n < f₂ →
    natDecAux f₁ n = natDecAux f₂ n := by
  intro f₁
  induction f₁ with
  | zero => omega
  | succ f₁ ih =>
    intro f₂ n h1 h2
    cases f₂ with
    | zero => omega
    | succ f₂ =>
      show (if n < 10 then [48 + n] else natDecAux f₁ (n / 10) ++ [48 + n % 10]) =
        (if n < 10 then [48 + n] else natDecAux f₂ (n / 10) ++ [48 + n % 10])
      split
      · rfl
      · rename_i h
        rw [ih f₂ (n / 10) (by omega) (by omega)]

theorem natDec_eq (n : Nat) :
    natDec n = if n < 10 then [48 + n] else natDec (n / 10) ++ [48 + n % 10] := by
  show natDecAux (n + 1) n = _
  show (if n < 10 then [48 + n] else natDecAux n (n / 10) ++ [48 + n % 10]) = _
  split
  · rfl
  · rename_i h
    rw [natDecAux_congr n (n / 10 + 1) (n / 10) (by omega) (by omega)]
    rfl

theorem natDec_digits (n : Nat) : ∀ b ∈ natDec n, 48 ≤ b ∧ b ≤ 57 := by
  induction n using Nat.strong_induction_on with
  | _ n ih =>
    rw [natDec_eq]
    split
    · rename_i h
      intro b hb
      simp only [List.mem_singleton] at hb
      omega
    · rename_i h
      intro b hb
      rcases List.mem_append.mp hb with h1 | h1
      · exact ih (n / 10) (Nat.div_lt_self (by omega) (by omega)) b h1
      · simp only [List.mem_singleton] at h1
        have := Nat.mod_lt n (show 0 < 10 by omega)
        omega

theorem natDec_ne_nil (n : Nat) : natDec n ≠ [] := by
  rw [natDec_eq]; split <;> simp

theorem decVal_natDec (n : Nat) : decVal (natDec n) = n := by
  induction n using Nat.strong_induction_on with
  | _ n ih =>
    rw [natDec_eq]
    split
    · rename_i h
      simp [decVal]
    · rename_i h
      have h2 := ih (n / 10) (Nat.div_lt_self (by omega) (by omega))
      rw [decVal, List.foldl_append]
      rw [decVal] at h2
      simp only [List.foldl_cons, List.foldl_nil, h2]
      omega

theorem natDec_injective {a b : Nat} (h : natDec a = natDec b) : a = b := by
  have := decVal_natDec a
  rw [h, decVal_natDec] at this
  omega

theorem natDec_length_le : ∀ (k n : Nat), n < 10 ^ (k + 1) → (natDec n).length ≤ k + 1 := by
  intro k
  induction k with
  | zero =>
    intro n hn
    rw [natDec_eq]
    split
    · simp
    · omega
  | succ k ih =>
    intro n hn
    rw [natDec_eq]
    split
    · simp
    · rename_i h
      have hd : n / 10 < 10 ^ (k + 1) := by
        rw [Nat.div_lt_iff_lt_mul (by omega)]
        calc n < 10 ^ (k + 1 + 1) := hn
        _ = 10 ^ (k + 1) * 10 := by ring
      have := ih (n / 10) hd
      simp only [List.length_append, List.length_singleton]
      omega

theorem sep_split {sep : Nat} :
    ∀ (s₁ s₂ : List Nat) {r₁ r₂ : List Nat},
      s₁ ++ sep :: r₁ = s₂ ++ sep :: r₂ → (∀ b ∈ s₁, b ≠ sep) → (∀ b ∈ s₂, b ≠ sep) →
      s₁ = s₂ ∧ r₁ = r₂ := by
  intro s₁
  induction s₁ with
  | nil =>
    intro s₂ r₁ r₂ h h1 h2
    cases s₂ with
    | nil => simpa using h
    | cons a t =>
      simp only [List.nil_append, List.cons_append, List.cons.injEq] at h
      exact absurd h.1.symm (h2 a (List.mem_cons_self a t))
  | cons a t ih =>
    intro s₂ r₁ r₂ h h1 h2
    cases s₂ with
    | nil =>
      simp only [List.nil_append, List.cons_append, List.cons.injEq] at h
      exact absurd h.1 (h1 a (List.mem_cons_self a t))
    | cons b u =>
      simp only [List.cons_append, List.cons.injEq] at h
      obtain ⟨hab, htail⟩ := h
      obtain ⟨h3, h4⟩ := ih u htail (fun x hx => h1 x (List.mem_cons_of_mem a hx))
        (fun x hx => h2 x (List.mem_cons_of_mem b hx))
      exact ⟨by rw [hab, h3], h4⟩

theorem natDec_ne_space {n : Nat} : ∀ b ∈ natDec n, b ≠ 32 := by
  intro b hb
  have := natDec_digits n b hb
  omega

theorem natDec_ne_dash {n : Nat} : ∀ b ∈ natDec n, b ≠ 45 := by
  intro b hb
  have := natDec_digits n b hb
  omega

theorem num_token_inj {P T₁ T₂ : List Nat} {i j : Nat}
    (h : P ++ (natDec i ++ 32 :: T₁) = P ++ (natDec j ++ 32 :: T₂)) :
    i = j ∧ T₁ = T₂ := by
  have h' := List.append_cancel_left h
  obtain ⟨h1, h2⟩ := sep_split (natDec i) (natDec j) h' natDec_ne_space natDec_ne_space
  exact ⟨natDec_injective h1, h2⟩

theorem ite_append {c : Prop} [Decidable c] (r x : List Nat) :
    (if c then r ++ x else r) = r ++ (if c then x else []) := by
  split <;> simp

/-! ## Claim theorems -/

theorem limitDouble_fin (d : FpVal) :
    ∃ q : ℚ, limitDouble d = FpVal.fin q ∧ 0 ≤ q ∧ q ≤ 1 := by
  cases d with
  | nan => exact ⟨0, by decide, by norm_num⟩
  | pinf => exact ⟨1, by decide, by norm_num⟩
  | ninf => exact ⟨0, by decide, by norm_num⟩
  | fin q =>
    by_cases h0 : q < 0
    · refine ⟨0, ?_, by norm_num⟩
      simp [limitDouble, fpIsNan, fplt, h0]
    · by_cases h1 : 1 < q
      · refine ⟨1, ?_, by norm_num⟩
        simp [limitDouble, fpIsNan, fplt, h0, h1]
      · exact ⟨q, by simp [limitDouble, fpIsNan, fplt, h0, h1],
          not_lt.mp h0, not_lt.mp h1⟩

/-- C8: every value stored by the `LimitDouble` constructor is a finite
value in [0, 1] and never NaN; in particular NaN maps to 0, −1 maps to 0,
2 maps to 1, +∞ maps to 1 and −∞ maps to 0. -/
theorem C8_limitDouble_clamps (d : FpVal) :
    fpIsNan (limitDouble d) = false ∧
    (∃ q : ℚ, limitDouble d = FpVal.fin q ∧ 0 ≤ q ∧ q ≤ 1) ∧
    limitDouble FpVal.nan = FpVal.fin 0 ∧
    limitDouble (FpVal.fin (-1)) = FpVal.fin 0 ∧
    limitDouble (FpVal.fin 2) = FpVal.fin 1 ∧
    limitDouble FpVal.pinf = FpVal.fin 1 ∧
    limitDouble FpVal.ninf = FpVal.fin 0 := by
  obtain ⟨q, hq, h0, h1⟩ := limitDouble_fin d
  exact ⟨by rw [hq]; rfl, ⟨q, hq, h0, h1⟩, by decide, by decide, by decide,
    by decide, by decide⟩

/-- C10: rendering the empty text is a no-op: the page state (command
buffer and used-resource sets included) is returned unchanged, the
conversion context is never opened and the font manager is never
consulted. -/
theorem C10_empty_text_noop (gsg : Nat → SubsetGlyph) (has_kerning : Bool)
    (kern : Nat → Nat → Int) (p : PdfPageState) (pointsize x y : List Nat) :
    render_utf8_text gsg has_kerning kern p [] pointsize x y = (p, false, []) := rfl

/-- C7 counterexample: selecting a non-stroking gray color while the
document output color space is RGB (so the two spaces differ) emits the
`g` operator with the unconverted value and performs no converter
invocation, contradicting the claim that the converter is invoked for
every device color whose space differs from the document's. -/
theorem C7_gray_no_conversion_counterexample :
    (set_nonstroke_color_gray PdfColorSpace.deviceRGB toGray0 toCmyk0 ⟨3⟩).2 = [] ∧
    (set_nonstroke_color_gray PdfColorSpace.deviceRGB toGray0 toCmyk0 ⟨3⟩).1 =
      PageOp.op_g 3 ∧
    PdfColorSpace.deviceRGB ≠ PdfColorSpace.deviceGray := by
  exact ⟨rfl, rfl, by decide⟩

/-- C7 amended: for a supplied RGB color the converter is invoked exactly
when the document output color space is not RGB (re-expressing the color
in the document space before emission), while the gray overload always
emits `g` with the supplied value directly and never invokes the
converter, whatever the output color space. -/
theorem C7_nonstroke_conversion {α : Type}
    (to_gray : RgbColor α → GrayColor α) (to_cmyk : RgbColor α → CmykColor α)
    (c : RgbColor α) (cg : GrayColor α) :
    set_nonstroke_color_rgb PdfColorSpace.deviceRGB to_gray to_cmyk c =
      (PageOp.op_rg c.r c.g c.b, []) ∧
    set_nonstroke_color_rgb PdfColorSpace.deviceGray to_gray to_cmyk c =
      (PageOp.op_g (to_gray c).v, [ConvCall.to_gray c]) ∧
    set_nonstroke_color_rgb PdfColorSpace.deviceCMYK to_gray to_cmyk c =
      (PageOp.op_k (to_cmyk c).c (to_cmyk c).m (to_cmyk c).y (to_cmyk c).k,
        [ConvCall.to_cmyk c]) ∧
    ∀ out, set_nonstroke_color_gray out to_gray to_cmyk cg = (PageOp.op_g cg.v, []) :=
  ⟨rfl, rfl, rfl, fun _ => rfl⟩

/-- C9: finalizing an already finalized page builder fails with the
double-finalize error; the destructor of a non-finalized builder runs
finalize, returns normally in every case, and turns a finalize failure
into a `FAIL:` log line instead of propagating it. -/
theorem C9_finalize_lifecycle (add_page : List Nat → List Nat → Except String Unit)
    (p : PdfPageState) :
    (p.is_finalized = true →
      page_finalize add_page p =
        Except.error "Tried to finalize a page object twice.") ∧
    (p.is_finalized = true → page_destructor add_page p = (p, [])) ∧
    (p.is_finalized = false → ∀ p1, page_finalize add_page p = Except.ok p1 →
      page_destructor add_page p = (p1, [])) ∧
    (p.is_finalized = false → ∀ e, page_finalize add_page p = Except.error e →
      page_destructor add_page p = (p, ["FAIL: " ++ e ++ "\n"])) := by
  refine ⟨fun h => ?_, fun h => ?_, fun h p1 hf => ?_, fun h e hf => ?_⟩
  · simp [page_finalize, h]
  · simp [page_destructor, h]
  · simp [page_destructor, h, hf]
  · simp [page_destructor, h, hf]

/-- C9 witness: the error path, the successful auto-finalize and the
logged-failure path, all at concrete pages. -/
theorem C9_finalize_lifecycle_witness :
    page_finalize apOk finalizedPage =
      Except.error "Tried to finalize a page object twice." ∧
    page_destructor apOk freshPage =
      ({ freshPage with
          is_finalized := true
          resources := build_resource_dict freshPage }, []) ∧
    page_destructor apErr freshPage = (freshPage, ["FAIL: io\n"]) :=
  ⟨(C9_finalize_lifecycle apOk finalizedPage).1 rfl,
   (C9_finalize_lifecycle apOk freshPage).2.2.1 rfl _ rfl,
   (C9_finalize_lifecycle apErr freshPage).2.2.2 rfl "io" rfl⟩

theorem objHeader_length_pos (n : Nat) : 0 < (objHeader n).length := by
  rw [objHeader, List.length_append]
  have : 0 < (natDec n).length := List.length_pos.mpr (natDec_ne_nil n)
  omega

theorem take_drop_append_frozen {F rest H : List Nat} {o : Nat}
    (h : (F.drop o).take H.length = H) (hH : 0 < H.length) :
    ((F ++ rest).drop o).take H.length = H := by
  have hlen : H.length ≤ (F.drop o).length := by
    have hc := congrArg List.length h
    rw [List.length_take] at hc
    rcases Nat.le_total H.length (F.drop o).length with hle | hle
    · exact hle
    · rw [Nat.min_eq_right hle] at hc
      omega
  have ho : o ≤ F.length := by
    rw [List.length_drop] at hlen
    omega
  rw [List.drop_append_eq_append_drop, Nat.sub_eq_zero_of_le ho, List.drop_zero,
    List.take_append_eq_append_take, h, Nat.sub_eq_zero_of_le hlen, List.take_zero,
    List.append_nil]

/-- C1: `add_object` assigns object number previous-count-plus-one, records
the current file offset before writing anything, writes exactly
`"N 0 obj\n"`, the body, then `"endobj\n"`, and thereby preserves the
invariant that every recorded offset sits immediately before the
corresponding `"i 0 obj"` header, which occurs at that offset. -/
theorem C1_add_object_emission (st : GenState) (data : List Nat)
    (hinv : objects_well_placed st) :
    (add_object st data).2 = st.object_offsets.length + 1 ∧
    (add_object st data).1.object_offsets = st.object_offsets ++ [st.file.length] ∧
    (add_object st data).1.file =
      st.file ++ objHeader (st.object_offsets.length + 1) ++ data ++ bytes "endobj\n" ∧
    objects_well_placed (add_object st data).1 := by
  refine ⟨rfl, rfl, rfl, ?_⟩
  intro i h
  have hlen : i < st.object_offsets.length + 1 := by
    simpa [add_object] using h
  show ((st.file ++ objHeader (st.object_offsets.length + 1) ++ data ++
      bytes "endobj\n").drop (st.object_offsets ++ [st.file.length])[i]).take
      (objHeader (i + 1)).length = objHeader (i + 1)
  by_cases hi : i < st.object_offsets.length
  · rw [List.getElem_append_left hi]
    have hshape : st.file ++ objHeader (st.object_offsets.length + 1) ++ data ++
        bytes "endobj\n" =
        st.file ++ (objHeader (st.object_offsets.length + 1) ++ (data ++
          bytes "endobj\n")) := by
      simp [List.append_assoc]
    rw [hshape]
    exact take_drop_append_frozen (hinv i hi) (objHeader_length_pos _)
  · have hieq : i = st.object_offsets.length := by omega
    subst hieq
    rw [List.getElem_concat_length]
    have hshape : st.file ++ objHeader (st.object_offsets.length + 1) ++ data ++
        bytes "endobj\n" =
        st.file ++ (objHeader (st.object_offsets.length + 1) ++ (data ++
          bytes "endobj\n")) := by
      simp [List.append_assoc]
    rw [hshape, List.drop_left, List.take_append_eq_append_take, List.take_length,
      Nat.sub_self, List.take_zero, List.append_nil]
    rfl

/-- C1 witness: the invariant holds for the empty assembler state and is
established for the state after one `add_object` call. -/
theorem C1_add_object_emission_witness :
    objects_well_placed ⟨[], [], []⟩ ∧
    objects_well_placed (add_object ⟨[], [], []⟩ (bytes "<<\n>>\n")).1 :=
  ⟨fun i h => absurd h (by simp),
   (C1_add_object_emission ⟨[], [], []⟩ (bytes "<<\n>>\n")
     (fun i h => absurd h (by simp))).2.2.2⟩

theorem add_object_offsets_length (st : GenState) (d : List Nat) :
    (add_object st d).1.object_offsets.length = st.object_offsets.length + 1 := by
  simp [add_object]

theorem emit_page_objects_spec (opts : PdfGenerationData) (pon : Nat) :
    ∀ (ps : List PageOffsets) (st : GenState),
      (emit_page_objects opts pon st ps).1.object_offsets.length =
        st.object_offsets.length + ps.length ∧
      (emit_page_objects opts pon st ps).1.pages = st.pages ∧
      (emit_page_objects opts pon st ps).2 =
        (List.range ps.length).map (fun i => st.object_offsets.length + 1 + i) := by
  intro ps
  induction ps with
  | nil => intro st; simp [emit_page_objects]
  | cons p ps ih =>
    intro st
    obtain ⟨h1, h2, h3⟩ := ih (add_object st (pageObjectDict opts pon p)).1
    refine ⟨?_, ?_, ?_⟩
    · show (emit_page_objects opts pon (add_object st (pageObjectDict opts pon p)).1
        ps).1.object_offsets.length = st.object_offsets.length + (ps.length + 1)
      rw [h1, add_object_offsets_length]
      omega
    · exact h2
    · show (add_object st (pageObjectDict opts pon p)).2 ::
        (emit_page_objects opts pon (add_object st (pageObjectDict opts pon p)).1 ps).2 =
        (List.range (ps.length + 1)).map (fun i => st.object_offsets.length + 1 + i)
      rw [h3, List.range_succ_eq_map, List.map_cons, List.map_map]
      refine congrArg₂ _ rfl ?_
      apply List.map_congr_left
      intro a _
      show (add_object st (pageObjectDict opts pon p)).1.object_offsets.length + 1 + a =
        st.object_offsets.length + 1 + (a + 1)
      rw [add_object_offsets_length]
      omega

theorem write_pages_eq (opts : PdfGenerationData) (st : GenState) :
    write_pages opts st =
      Except.ok (add_object
        (emit_page_objects opts (st.object_offsets.length + st.pages.length + 1)
          st st.pages).1
        (pagesDict (emit_page_objects opts
          (st.object_offsets.length + st.pages.length + 1) st st.pages).2)).1 := by
  obtain ⟨h1, _, _⟩ := emit_page_objects_spec opts
    (st.object_offsets.length + st.pages.length + 1) st.pages st
  rw [write_pages]
  rw [if_neg]
  simp only [add_object, h1, ne_eq, Decidable.not_not]

/-- C3: the page-tree root's object number equals the value predicted before
page emission (current object count + pending pages + 1), so `write_pages`
always takes its success path rather than the internal-bug failure path, and
the page objects receive strictly increasing object numbers in the order the
pages were added. -/
theorem C3_page_tree_numbering (opts : PdfGenerationData) (st : GenState) :
    write_pages opts st =
      Except.ok (add_object
        (emit_page_objects opts (st.object_offsets.length + st.pages.length + 1)
          st st.pages).1
        (pagesDict (emit_page_objects opts
          (st.object_offsets.length + st.pages.length + 1) st st.pages).2)).1 ∧
    (add_object
        (emit_page_objects opts (st.object_offsets.length + st.pages.length + 1)
          st st.pages).1
        (pagesDict (emit_page_objects opts
          (st.object_offsets.length + st.pages.length + 1) st st.pages).2)).2 =
      st.object_offsets.length + st.pages.length + 1 ∧
    (emit_page_objects opts (st.object_offsets.length + st.pages.length + 1)
        st st.pages).2 =
      (List.range st.pages.length).map (fun i => st.object_offsets.length + 1 + i) ∧
    List.Pairwise (· < ·)
      (emit_page_objects opts (st.object_offsets.length + st.pages.length + 1)
        st st.pages).2 := by
  obtain ⟨h1, h2, h3⟩ := emit_page_objects_spec opts
    (st.object_offsets.length + st.pages.length + 1) st.pages st
  refine ⟨write_pages_eq opts st, ?_, h3, ?_⟩
  · show (emit_page_objects opts (st.object_offsets.length + st.pages.length + 1)
      st st.pages).1.object_offsets.length + 1 = _
    rw [h1]
  · rw [h3]
    exact (List.pairwise_lt_range st.pages.length).map _
      (fun a b hab => by omega)

theorem pad10_length {o : Nat} (h : o < 10 ^ 10) : (pad10 o).length = 10 := by
  have hle : (natDec o).length ≤ 10 := natDec_length_le 9 o h
  rw [pad10, List.length_append, List.length_replicate]
  omega

theorem xrefEntry_length {o : Nat} (h : o < 10 ^ 10) : (xrefEntry o).length = 20 := by
  rw [xrefEntry, List.length_append, pad10_length h]
  rfl

/-- C2: the cross-reference table starts with `"xref\n0 N\n"` where N is the
object count plus one, is followed by exactly object-count-plus-one entries,
of which entry 0 is the free-list head `"0000000000 65535 f \n"` and every
later entry is the recorded offset zero-padded to ten digits followed by
`" 00000 n \n"`, each entry being exactly 20 bytes (offsets below 10^10). -/
theorem C2_cross_reference_table (object_offsets : List Nat)
    (h : ∀ o ∈ object_offsets, o < 10 ^ 10) :
    write_cross_reference_table object_offsets =
      bytes "xref\n0 " ++ natDec (object_offsets.length + 1) ++ bytes "\n" ++
      flat (xrefFreeEntry :: object_offsets.map xrefEntry) ∧
    (xrefFreeEntry :: object_offsets.map xrefEntry).length =
      object_offsets.length + 1 ∧
    xrefFreeEntry = bytes "0000000000 65535 f \n" ∧
    (∀ e ∈ xrefFreeEntry :: object_offsets.map xrefEntry, e.length = 20) ∧
    ∀ o ∈ object_offsets, xrefEntry o = pad10 o ++ bytes " 00000 n \n" := by
  refine ⟨?_, by simp, rfl, ?_, fun o _ => rfl⟩
  · rw [write_cross_reference_table]
    show _ = _ ++ (xrefFreeEntry ++ flat (object_offsets.map xrefEntry))
    simp [List.append_assoc]
  · intro e he
    rcases List.mem_cons.mp he with he | he
    · rw [he]
      rfl
    · obtain ⟨o, ho, rfl⟩ := List.mem_map.mp he
      exact xrefEntry_length (h o ho)

/-- C2 witness: a concrete offset table satisfying the ten-digit bound, with
every entry 20 bytes long. -/
theorem C2_cross_reference_table_witness :
    (∀ o ∈ [0, 999], o < 10 ^ 10) ∧
    ∀ e ∈ xrefFreeEntry :: List.map xrefEntry [0, 999], e.length = 20 :=
  ⟨by decide, (C2_cross_reference_table [0, 999] (by decide)).2.2.2.1⟩

/-- C5 counterexample: closing a concrete (empty) document succeeds, and the
file written contains the two-space-indented `"trailer\n<<\n  /Size "` but
not the claimed single-space `"trailer\n<<\n /Size "`, so the trailer is not
the byte string the claim specifies. -/
theorem C5_trailer_counterexample :
    c5IsOk = true ∧
    containsSeq (bytes "trailer\n<<\n /Size ") c5FileBytes = false ∧
    containsSeq (bytes "trailer\n<<\n  /Size ") c5FileBytes = true := by
  set_option maxRecDepth 10000 in decide

/-- C5 (amended): the trailer written at close consists exactly of the bytes
`"trailer\n<<\n  /Size N\n  /Root <root> 0 R\n  /Info 1 0 R\n>>\nstartxref\n<offset>\n%%EOF\n"`
(two-space indentation inside the dictionary), where N is the final object
count plus one, `<root>` is the catalog's object number (the last object
emitted), the info reference is object 1, and `<offset>` is the file offset
at which the cross-reference table begins; the file ends with `"%%EOF\n"`. -/
theorem C5_trailer_bytes (opts : PdfGenerationData) (st st1 st2 : GenState) (root : Nat)
    (h1 : write_pages opts st = Except.ok st1)
    (h2 : write_catalog st1 = (st2, root)) :
    close_file opts st = Except.ok
      { st2 with file := st2.file ++ write_cross_reference_table st2.object_offsets ++
          write_trailer st2.object_offsets st2.file.length } ∧
    root = st2.object_offsets.length ∧
    write_trailer st2.object_offsets st2.file.length =
      bytes "trailer\n<<\n  /Size " ++ natDec (st2.object_offsets.length + 1) ++
      bytes "\n  /Root " ++ natDec st2.object_offsets.length ++
      bytes " 0 R\n  /Info 1 0 R\n>>\nstartxref\n" ++ natDec st2.file.length ++
      bytes "\n%%EOF\n" ∧
    (st2.file ++ write_cross_reference_table st2.object_offsets ++
        write_trailer st2.object_offsets st2.file.length).drop st2.file.length =
      write_cross_reference_table st2.object_offsets ++
        write_trailer st2.object_offsets st2.file.length ∧
    ∃ pre : List Nat,
      st2.file ++ write_cross_reference_table st2.object_offsets ++
        write_trailer st2.object_offsets st2.file.length =
      pre ++ bytes "%%EOF\n" := by
  have hst2 : st2 = (write_catalog st1).1 := by rw [h2]
  have hroot : root = (write_catalog st1).2 := by rw [h2]
  refine ⟨?_, ?_, rfl, ?_, ?_⟩
  · simp only [close_file, h1, h2]
  · rw [hroot, hst2]
    show st1.object_offsets.length + 1 = (add_object st1 _).1.object_offsets.length
    rw [add_object_offsets_length]
  · rw [List.append_assoc]
    exact List.drop_left _ _
  · refine ⟨st2.file ++ write_cross_reference_table st2.object_offsets ++
      (bytes "trailer\n<<\n  /Size " ++ natDec (st2.object_offsets.length + 1) ++
        bytes "\n  /Root " ++ natDec st2.object_offsets.length ++
        bytes " 0 R\n  /Info 1 0 R\n>>\nstartxref\n" ++ natDec st2.file.length ++
        [10]), ?_⟩
    have hsplit : bytes "\n%%EOF\n" = [10] ++ bytes "%%EOF\n" := by decide
    rw [write_trailer, hsplit]
    simp [List.append_assoc]

/-- C5 witness: the hypotheses hold for the concrete empty-document run, and
the claim conclusion identifies the catalog as the root object. -/
theorem C5_trailer_bytes_witness :
    write_pages c5Opts c5St0 = Except.ok c5PagesOk ∧
    (write_catalog c5PagesOk).2 = (write_catalog c5PagesOk).1.object_offsets.length :=
  ⟨by rfl,
   (C5_trailer_bytes c5Opts c5St0 c5PagesOk (write_catalog c5PagesOk).1
     (write_catalog c5PagesOk).2 (by rfl) rfl).2.1⟩

/-- C6 counterexample: rendering the two-codepoint text "Af" at 12 pt at
(10,100), with the font manager assigning glyph bytes 0x41 and 0x66 in the
same subset and a registered kerning pair (A, f) of −50 font units, does not
put the claimed TJ array `"[ <4100> -50 <6600> ] TJ"` into the content
stream: the code emits two hex digits per glyph and no spaces around the
kerning number, producing `"[ <41>-50<66> ] TJ"` instead. -/
theorem C6_kerning_tj_counterexample :
    containsSeq (bytes "[ <4100> -50 <6600> ] TJ")
      (render_utf8_text kernGsg true kernTable freshPage [65, 102]
        (bytes "12") (bytes "10") (bytes "100")).1.commands = false ∧
    containsSeq (bytes "[ <41>-50<66> ] TJ")
      (render_utf8_text kernGsg true kernTable freshPage [65, 102]
        (bytes "12") (bytes "10") (bytes "100")).1.commands = true := by
  set_option maxRecDepth 10000 in decide

/-- C6 (amended): rendering two codepoints that share a font subset, whose
kerning pair is a nonzero k, appends to the content stream the text block
`BT ... [ <` then the first glyph's two hex digits, then `>k<` (the integer
kerning value splitting the hex run, with no surrounding spaces), then the
second glyph's two hex digits, closed by `> ] TJ` and `ET`; for the "Af"
scenario this contains `"[ <41>-50<66> ] TJ"`. -/
theorem C6_kerning_tj_emission (gsg : Nat → SubsetGlyph) (kern : Nat → Nat → Int)
    (p : PdfPageState) (c1 c2 : Nat) (ss : FontSubset) (g1 g2 : Nat) (k : Int)
    (ps x y : List Nat)
    (h1 : gsg c1 = ⟨ss, g1⟩) (h2 : gsg c2 = ⟨ss, g2⟩)
    (hkern : kern c1 c2 = k) (hknz : k ≠ 0) :
    (render_utf8_text gsg true kern p [c1, c2] ps x y).1.commands =
      p.commands ++
      (bytes "BT\n  /SFont" ++ natDec (p.font_objects.getD ss.fid ⟨0⟩).font_obj ++
        [45] ++ natDec ss.subset_id ++ [32] ++ ps ++ bytes " Tf\n  " ++ x ++ [32] ++
        y ++ bytes " Td\n  [ <") ++
      hex2 g1 ++ ([62] ++ intDec k ++ [60]) ++ hex2 g2 ++ bytes "> ] TJ\nET\n" := by
  simp only [render_utf8_text, render_loop, h1, h2, hkern, List.isEmpty_cons,
    Bool.false_eq_true, if_false, ne_eq, not_true_eq_false, if_pos hknz,
    List.append_assoc, List.append_nil, List.nil_append]
  simp [List.append_assoc]

/-- C6 witness: the amended emission at the concrete "Af" scenario. -/
theorem C6_kerning_tj_emission_witness :
    kernGsg 65 = ⟨⟨0, 0⟩, 65⟩ ∧ kernGsg 102 = ⟨⟨0, 0⟩, 102⟩ ∧
    kernTable 65 102 = -50 ∧ ((-50 : Int) ≠ 0) ∧
    (render_utf8_text kernGsg true kernTable freshPage [65, 102]
        (bytes "12") (bytes "10") (bytes "100")).1.commands =
      freshPage.commands ++
      (bytes "BT\n  /SFont" ++ natDec (freshPage.font_objects.getD 0 ⟨0⟩).font_obj ++
        [45] ++ natDec 0 ++ [32] ++ bytes "12" ++ bytes " Tf\n  " ++ bytes "10" ++
        [32] ++ bytes "100" ++ bytes " Td\n  [ <") ++
      hex2 65 ++ ([62] ++ intDec (-50) ++ [60]) ++ hex2 102 ++ bytes "> ] TJ\nET\n" :=
  ⟨rfl, rfl, rfl, by decide,
   C6_kerning_tj_emission kernGsg kernTable freshPage 65 102 ⟨0, 0⟩ 65 102 (-50)
     (bytes "12") (bytes "10") (bytes "100") rfl rfl rfl (by decide)⟩

theorem num_dash_inj {P T₁ T₂ : List Nat} {i j : Nat}
    (h : P ++ (natDec i ++ 45 :: T₁) = P ++ (natDec j ++ 45 :: T₂)) :
    i = j ∧ T₁ = T₂ := by
  have h' := List.append_cancel_left h
  obtain ⟨h1, h2⟩ := sep_split (natDec i) (natDec j) h' natDec_ne_dash natDec_ne_dash
  exact ⟨natDec_injective h1, h2⟩

theorem imageEntry_inj {i j : Nat} (h : imageEntry i = imageEntry j) : i = j := by
  have h' : bytes "    /Image" ++ (natDec i ++ 32 :: (natDec i ++ bytes " 0 R\n")) =
      bytes "    /Image" ++ (natDec j ++ 32 :: (natDec j ++ bytes " 0 R\n")) := by
    simpa [imageEntry, List.append_assoc] using h
  exact (num_token_inj h').1

theorem fontEntry_inj {i j : Nat} (h : fontEntry i = fontEntry j) : i = j := by
  have h' : bytes "    /Font" ++ (natDec i ++ 32 :: (natDec i ++ bytes " 0 R\n")) =
      bytes "    /Font" ++ (natDec j ++ 32 :: (natDec j ++ bytes " 0 R\n")) := by
    simpa [fontEntry, List.append_assoc] using h
  exact (num_token_inj h').1

theorem cspaceEntry_inj {i j : Nat} (h : cspaceEntry i = cspaceEntry j) : i = j := by
  have h' : bytes "    /CSpace" ++ (natDec i ++ 32 :: (natDec i ++ bytes " 0 R\n")) =
      bytes "    /CSpace" ++ (natDec j ++ 32 :: (natDec j ++ bytes " 0 R\n")) := by
    simpa [cspaceEntry, List.append_assoc] using h
  exact (num_token_inj h').1

theorem subsetEntry_inj (fo : List FontInfo) {s1 s2 : FontSubset}
    (h : subsetEntry fo s1 = subsetEntry fo s2) :
    s1.subset_id = s2.subset_id ∧
    (fo.getD s1.fid ⟨0⟩).font_obj = (fo.getD s2.fid ⟨0⟩).font_obj := by
  have h' : bytes "    /SFont" ++ ((natDec (fo.getD s1.fid ⟨0⟩).font_obj) ++ 45 ::
        (natDec s1.subset_id ++ 32 ::
          (natDec (fo.getD s1.fid ⟨0⟩).font_obj ++ bytes " 0 R\n"))) =
      bytes "    /SFont" ++ ((natDec (fo.getD s2.fid ⟨0⟩).font_obj) ++ 45 ::
        (natDec s2.subset_id ++ 32 ::
          (natDec (fo.getD s2.fid ⟨0⟩).font_obj ++ bytes " 0 R\n"))) := by
    simpa [subsetEntry, List.append_assoc] using h
  obtain ⟨hobj, htail⟩ := num_dash_inj h'
  obtain ⟨hsid, _⟩ := sep_split (natDec s1.subset_id) (natDec s2.subset_id) htail
    natDec_ne_space natDec_ne_space
  exact ⟨natDec_injective hsid, hobj⟩

theorem entry_mem_iff {α : Type} {f : α → List Nat}
    (hf : ∀ {a b : α}, f a = f b → a = b) (l : List α) (i : α) :
    f i ∈ l.map f ↔ i ∈ l := by
  constructor
  · intro h
    obtain ⟨j, hj, he⟩ := List.mem_map.mp h
    rwa [← hf he]
  · exact List.mem_map_of_mem f

theorem allEntry_ne_cspaceEntry (p : PdfPageState) (i : Nat) :
    allEntry p ≠ cspaceEntry i := by
  intro h
  have hA : bytes "    /All " = [32, 32, 32, 32, 47, 65, 108, 108, 32] := by decide
  have hC : bytes "    /CSpace" = [32, 32, 32, 32, 47, 67, 83, 112, 97, 99, 101] := by
    decide
  rw [allEntry, cspaceEntry, hA, hC] at h
  have h5 := congrArg (fun l => l.getD 5 0) h
  simp at h5

theorem ite_append_else {c : Prop} [Decidable c] (r x : List Nat) :
    (if c then r else r ++ x) = r ++ (if c then [] else x) := by
  split <;> simp

theorem build_resource_dict_blocks (p : PdfPageState) :
    build_resource_dict p =
      bytes "<<\n  /ColorSpace " ++ colorSpaceName p.output_colorspace ++
      xobjBlock p ++ fontBlock p ++ csBlock p ++ gsBlock p ++ bytes ">>\n" := by
  rw [build_resource_dict, xobjBlock, fontBlock, csBlock, gsBlock]
  by_cases h1 : p.used_images.isEmpty = true <;>
  by_cases h2 : (p.used_fonts.isEmpty && p.used_subset_fonts.isEmpty) = true <;>
  by_cases h3 : (p.used_colorspaces.isEmpty && !p.uses_all_colorspace) = true <;>
  by_cases h4 : p.gstates.isEmpty = true <;>
  simp [h1, h2, h3, h4, List.append_assoc]

/-- C4: the resource dictionary built at finalize is exactly the output color
space line followed by the `/XObject`, `/Font`, `/ColorSpace` and
`/ExtGState` sub-dictionaries, each enumerating precisely the page's used
resources (so no key for an unused resource appears): images as
`/Image<obj> <obj> 0 R`, whole fonts as `/Font<obj>`, subset fonts as
`/SFont<font_obj>-<subset_id>`, color spaces as `/CSpace<obj>`, graphics
states by name, and `/All` (present exactly when the all-separation was
used) referencing the first separation object; distinct object numbers
always produce distinct keys, and a subset-font key determines the font
object number and subset id. -/
theorem C4_resource_dict (p : PdfPageState) :
    build_resource_dict p =
      bytes "<<\n  /ColorSpace " ++ colorSpaceName p.output_colorspace ++
      xobjBlock p ++ fontBlock p ++ csBlock p ++ gsBlock p ++ bytes ">>\n" ∧
    (∀ i : Nat, imageEntry i ∈ p.used_images.map imageEntry ↔ i ∈ p.used_images) ∧
    (∀ i : Nat, fontEntry i ∈ p.used_fonts.map fontEntry ↔ i ∈ p.used_fonts) ∧
    (∀ i : Nat,
      cspaceEntry i ∈ p.used_colorspaces.map cspaceEntry ↔ i ∈ p.used_colorspaces) ∧
    (∀ s ∈ p.used_subset_fonts,
      subsetEntry p.font_objects s ∈
        p.used_subset_fonts.map (subsetEntry p.font_objects)) ∧
    (∀ s1 s2 : FontSubset,
      subsetEntry p.font_objects s1 = subsetEntry p.font_objects s2 →
        s1.subset_id = s2.subset_id ∧
        (p.font_objects.getD s1.fid ⟨0⟩).font_obj =
          (p.font_objects.getD s2.fid ⟨0⟩).font_obj) ∧
    (p.uses_all_colorspace = true → p.separation_objects ≠ [] →
      allEntry p =
        bytes "    /All " ++ natDec (p.separation_objects.headD 0) ++ bytes " 0 R\n") ∧
    (p.uses_all_colorspace = true →
      csBlock p = bytes "  /ColorSpace <<\n" ++ allEntry p ++
        flat (p.used_colorspaces.map cspaceEntry) ++ bytes "  >>\n") ∧
    (∀ i : Nat, allEntry p ≠ cspaceEntry i) ∧
    (∀ s ∈ p.gstates, gsEntry s ∈ p.gstates.map gsEntry) := by
  refine ⟨build_resource_dict_blocks p,
    fun i => entry_mem_iff (fun h => imageEntry_inj h) _ i,
    fun i => entry_mem_iff (fun h => fontEntry_inj h) _ i,
    fun i => entry_mem_iff (fun h => cspaceEntry_inj h) _ i,
    fun s hs => List.mem_map_of_mem _ hs,
    fun s1 s2 h => subsetEntry_inj p.font_objects h,
    ?_, ?_,
    allEntry_ne_cspaceEntry p,
    fun s hs => List.mem_map_of_mem _ hs⟩
  · intro _ hsep
    rw [allEntry]
    cases hl : p.separation_objects with
    | nil => exact absurd hl hsep
    | cons a l => simp [hl]
  · intro hall
    rw [csBlock, hall]
    simp [List.append_assoc]

/-- C4 witness: the inner implications discharged on a page that uses one of
every kind of resource, the all-separation included. -/
theorem C4_resource_dict_witness :
    busyPage.uses_all_colorspace = true ∧
    busyPage.separation_objects ≠ [] ∧
    allEntry busyPage =
      bytes "    /All " ++ natDec (busyPage.separation_objects.headD 0) ++
        bytes " 0 R\n" :=
  ⟨rfl, by decide, (C4_resource_dict busyPage).2.2.2.2.2.2.1 rfl (by decide)⟩
